import Mathlib

/-!
Verification of the adaptive-precision geometric predicate engine
(`Predicates` class, `predicates.cpp`) of the tRIBS model.

The engine's double-precision (`tREAL`) values are embedded as rational
numbers; every floating-point operation of the source is wrapped in an
explicit rounding function.  Most definitions are parametric in an
arbitrary rounding `fl : ℚ → ℚ`, of which the concrete IEEE-754
binary64 round-to-nearest-even rounding (`round64` below) is one
instance; theorems that need a concrete machine arithmetic use
`round64`.  Expansions (`tREAL` arrays with explicit lengths in the
source) are embedded as lists, whose length is the returned length.
-/

namespace Predicates

/-! ### The binary64 rounding used by the source's `double` operations -/

/-- Modelled from the spec: the source does arithmetic on IEEE-754
`double`s (`tREAL`, declared in `predicates.h`, which is not among the
provided sources), rounding every operation result to nearest with
ties to even.  `fexpDown fuel q acc` computes `acc + ⌊log₂ q⌋` for
`q ≥ 1` by repeated halving; the fuel bounds the exponent range and is
never exhausted for values in the binary64 range. -/
def fexpDown : ℕ → ℚ → ℤ → ℤ
  | 0, _, acc => acc
  | n + 1, q, acc => if 2 ≤ q then fexpDown n (q / 2) (acc + 1) else acc

/-- Companion of `fexpDown` for `0 < q < 1`: repeated doubling. -/
def fexpUp : ℕ → ℚ → ℤ → ℤ
  | 0, _, acc => acc
  | n + 1, q, acc => if q < 1 then fexpUp n (q * 2) (acc - 1) else acc

/-- Binary exponent `⌊log₂ q⌋` of a positive rational. -/
def fexp (q : ℚ) : ℤ :=
  if 1 ≤ q then fexpDown 4200 q 0 else fexpUp 4200 q 0

/-- Round a rational to the nearest integer, ties to even. -/
def rne (q : ℚ) : ℚ :=
  let f : ℤ := Int.fdiv q.num q.den
  let r : ℚ := q - (f : ℚ)
  if r < 1 / 2 then (f : ℚ)
  else if 1 / 2 < r then ((f + 1 : ℤ) : ℚ)
  else if f % 2 = 0 then (f : ℚ) else ((f + 1 : ℤ) : ℚ)

/-- Round a positive rational to 53 significant binary digits,
nearest, ties to even. -/
def flPos (q : ℚ) : ℚ :=
  let e := fexp q
  let u : ℚ := 2 ^ (e - 52)
  rne (q / u) * u

/-- Modelled from the spec: IEEE-754 binary64 round-to-nearest-even on
ℚ, with unbounded exponent range (overflow and subnormal rounding do
not occur for any value handled in this development; §3 of the spec
relies on round-to-nearest-even semantics). -/
def round64 (q : ℚ) : ℚ :=
  if q = 0 then 0 else if q < 0 then -flPos (-q) else flPos q

/-! ### Exact-arithmetic primitives

Modelled from the spec (§4.2): the primitive macros (`Two_Sum`,
`Fast_Two_Sum`, `Two_Diff_Tail`, `Split`, `Two_Product`,
`Two_Product_Presplit`, `Square` and the `Two_One` / `Two_Two`
combinations) are declared in `predicates.h`, which is not among the
provided sources; they are the standard error-free transformations the
spec describes, matching the temporaries (`bvirt`, `avirt`, `bround`,
`around`, `c`, `abig`, `ahi`, `alo`, `bhi`, `blo`, `err1..3`, `_i`,
`_j`, `_0`) declared by their callers in `predicates.cpp`.  Each
primitive returns the pair (rounded result, correction term). -/

/-- Macro `Two_Sum(a, b, x, y)`: exact sum decomposition for unordered
operands via the virtual-subtraction trick. -/
def Two_Sum (fl : ℚ → ℚ) (a b : ℚ) : ℚ × ℚ :=
  let x := fl (a + b)
  let bvirt := fl (x - a)
  let avirt := fl (x - bvirt)
  let bround := fl (b - bvirt)
  let around := fl (a - avirt)
  (x, fl (around + bround))

/-- Macro `Fast_Two_Sum(a, b, x, y)`: exact sum decomposition, valid when
`|a| ≥ |b|`. -/
def Fast_Two_Sum (fl : ℚ → ℚ) (a b : ℚ) : ℚ × ℚ :=
  let x := fl (a + b)
  let bvirt := fl (x - a)
  (x, fl (b - bvirt))

/-- Macro `Two_Diff_Tail(a, b, x, y)`: correction term of the rounded
difference `x = fl(a - b)`. -/
def Two_Diff_Tail (fl : ℚ → ℚ) (a b x : ℚ) : ℚ :=
  let bvirt := fl (a - x)
  let avirt := fl (x + bvirt)
  let bround := fl (bvirt - b)
  let around := fl (a - avirt)
  fl (around + bround)

/-- Macro `Two_Diff(a, b, x, y)`: exact difference decomposition. -/
def Two_Diff (fl : ℚ → ℚ) (a b : ℚ) : ℚ × ℚ :=
  let x := fl (a - b)
  (x, Two_Diff_Tail fl a b x)

/-- Macro `Split(a, ahi, alo)` (`tSPLIT` in the source): cut `a` into two
half-length significands using the `splitter` constant. -/
def Split (fl : ℚ → ℚ) (splitter a : ℚ) : ℚ × ℚ :=
  let c := fl (splitter * a)
  let abig := fl (c - a)
  let ahi := fl (c - abig)
  (ahi, fl (a - ahi))

/-- Macro `Two_Product_Presplit(a, b, bhi, blo, x, y)`: exact product
decomposition reusing a pre-split second operand. -/
def Two_Product_Presplit (fl : ℚ → ℚ) (splitter a b bhi blo : ℚ) : ℚ × ℚ :=
  let x := fl (a * b)
  let s := Split fl splitter a
  let err1 := fl (x - fl (s.1 * bhi))
  let err2 := fl (err1 - fl (s.2 * bhi))
  let err3 := fl (err2 - fl (s.1 * blo))
  (x, fl (fl (s.2 * blo) - err3))

/-- Macro `Two_Product(a, b, x, y)`: exact product decomposition. -/
def Two_Product (fl : ℚ → ℚ) (splitter a b : ℚ) : ℚ × ℚ :=
  let bs := Split fl splitter b
  Two_Product_Presplit fl splitter a b bs.1 bs.2

/-- Macro `Square(a, x, y)`: exact square decomposition (specialised
`Two_Product`). -/
def Square (fl : ℚ → ℚ) (splitter a : ℚ) : ℚ × ℚ :=
  let x := fl (a * a)
  let s := Split fl splitter a
  let err1 := fl (x - fl (s.1 * s.1))
  let err3 := fl (err1 - fl (fl (s.1 + s.1) * s.2))
  (x, fl (fl (s.2 * s.2) - err3))

/-- Macro `Two_One_Diff(a1, a0, b, x2, x1, x0)`. -/
def Two_One_Diff (fl : ℚ → ℚ) (a1 a0 b : ℚ) : ℚ × ℚ × ℚ :=
  let p := Two_Diff fl a0 b
  let q := Two_Sum fl a1 p.1
  (q.1, q.2, p.2)

/-- Macro `Two_Two_Diff(a1, a0, b1, b0, x3, x2, x1, x0)`. -/
def Two_Two_Diff (fl : ℚ → ℚ) (a1 a0 b1 b0 : ℚ) : ℚ × ℚ × ℚ × ℚ :=
  let p := Two_One_Diff fl a1 a0 b0
  let q := Two_One_Diff fl p.1 p.2.1 b1
  (q.1, q.2.1, q.2.2, p.2.2)

/-- Macro `Two_One_Sum(a1, a0, b, x2, x1, x0)`. -/
def Two_One_Sum (fl : ℚ → ℚ) (a1 a0 b : ℚ) : ℚ × ℚ × ℚ :=
  let p := Two_Sum fl a0 b
  let q := Two_Sum fl a1 p.1
  (q.1, q.2, p.2)

/-- Macro `Two_Two_Sum(a1, a0, b1, b0, x3, x2, x1, x0)`. -/
def Two_Two_Sum (fl : ℚ → ℚ) (a1 a0 b1 b0 : ℚ) : ℚ × ℚ × ℚ × ℚ :=
  let p := Two_One_Sum fl a1 a0 b0
  let q := Two_One_Sum fl p.1 p.2.1 b1
  (q.1, q.2.1, q.2.2, p.2.2)

/-- The `Absolute` macro of `predicates.cpp`: exact, no rounding. -/
def Absolute (a : ℚ) : ℚ := if a ≥ 0 then a else -a

/-! ### Expansion algebra (`predicates.cpp`, sections on expansions)

An expansion `e` of length `elen` is embedded as a list of `elen`
rationals; the list returned by an operation holds exactly the
components the source writes to `h`, in order, and its length is the
length the source returns. -/

/-- Loop body of `grow_expansion` (`predicates.cpp` lines 106-123):
`Q = b`, then each `Two_Sum` writes one component of `h`; the final
`Q` is appended.  Returns all of `h`. -/
def grow_expansion (fl : ℚ → ℚ) (e : List ℚ) (b : ℚ) : List ℚ :=
  match e with
  | [] => [b]
  | x :: rest =>
      let p := Two_Sum fl b x
      p.2 :: grow_expansion fl rest p.1

/-- Scan used by the zero-eliminating operations: runs the `Two_Sum`
chain of `grow_expansion` over the list, keeping only nonzero
correction terms, and returns them together with the final `Q`
(`predicates.cpp` lines 139-162 and the drain loops of
`fast_expansion_sum_zeroelim`). -/
def gzEmit (fl : ℚ → ℚ) : ℚ → List ℚ → List ℚ × ℚ
  | q, [] => ([], q)
  | q, x :: rest =>
      let p := Two_Sum fl q x
      let r := gzEmit fl p.1 rest
      (if p.2 = 0 then r.1 else p.2 :: r.1, r.2)

/-- The final conditional write shared by the `zeroelim` operations:
`if ((Q != 0.0) || (hindex == 0)) h[hindex++] = Q`. -/
def zfinish (h : List ℚ) (q : ℚ) : List ℚ :=
  if q ≠ 0 ∨ h.isEmpty then h ++ [q] else h

/-- Function `grow_expansion_zeroelim` (`predicates.cpp` lines 139-162). -/
def grow_expansion_zeroelim (fl : ℚ → ℚ) (e : List ℚ) (b : ℚ) : List ℚ :=
  let r := gzEmit fl b e
  zfinish r.1 r.2

/-- Inner pass of `expansion_sum` for `f[findex]` (`predicates.cpp`
lines 194-202): rewrites `h[findex..hlast]` in place and appends the
final `Q`; the prefix `h[0..findex-1]` is untouched. -/
def esLoop (fl : ℚ → ℚ) : List ℚ → ℕ → List ℚ → List ℚ
  | h, _, [] => h
  | h, i, b :: rest => esLoop fl (h.take i ++ grow_expansion fl (h.drop i) b) (i + 1) rest

/-- Function `expansion_sum` (`predicates.cpp` lines 177-204).  The first loop
is `grow_expansion` of `e` by `f[0]`; each later `f[findex]` is folded
into `h[findex..hlast]`. -/
def expansion_sum (fl : ℚ → ℚ) (e f : List ℚ) : List ℚ :=
  match f with
  | [] => e
  | b :: rest => esLoop fl (grow_expansion fl e b) 1 rest

/-- Function `expansion_sum_zeroelim1` (`predicates.cpp` lines 220-259):
`expansion_sum` followed by in-place compaction; if every component is
zero the returned length is 1 (the untouched `h[0]`, a zero). -/
def expansion_sum_zeroelim1 (fl : ℚ → ℚ) (e f : List ℚ) : List ℚ :=
  let g := expansion_sum fl e f
  let z := g.filter (fun x => decide (x ≠ 0))
  if z.isEmpty then g.take 1 else z

/-- One pass of `expansion_sum_zeroelim2` (`predicates.cpp` lines
287-295 and 298-309): compacting `Two_Sum` scan with the final `Q`
written unconditionally. -/
def esz2Go (fl : ℚ → ℚ) : ℚ → List ℚ → List ℚ
  | q, [] => [q]
  | q, x :: rest =>
      let p := Two_Sum fl q x
      if p.2 ≠ 0 then p.2 :: esz2Go fl p.1 rest else esz2Go fl p.1 rest

/-- Function `expansion_sum_zeroelim2` (`predicates.cpp` lines 275-312): the
first pass scans `e` seeded with `f[0]`; every later pass rescans the
accumulated `h` seeded with the next component of `f`. -/
def expansion_sum_zeroelim2 (fl : ℚ → ℚ) (e f : List ℚ) : List ℚ :=
  match f with
  | [] => e
  | b :: rest => rest.foldl (fun h bi => esz2Go fl bi h) (esz2Go fl b e)

/-- Merge condition of the fast and linear expansion sums:
`(fnow > enow) == (fnow > -enow)` selects the `e` component. -/
def feszCond (enow fnow : ℚ) : Bool := (decide (fnow > enow)) == (decide (fnow > -enow))

/-- Merge loop of `fast_expansion_sum_zeroelim` (`predicates.cpp`
lines 434-446) together with its drain loops (lines 448-463): while
both inputs remain, consume the component selected by `feszCond`
through `Two_Sum`, keeping nonzero corrections; once one input is
exhausted, drain the other.  The fuel is the total number of remaining
components, so it is never exhausted. -/
def feszMerge (fl : ℚ → ℚ) : ℕ → ℚ → List ℚ → List ℚ → List ℚ × ℚ
  | 0, q, _, _ => ([], q)
  | _ + 1, q, [], f => gzEmit fl q f
  | _ + 1, q, e, [] => gzEmit fl q e
  | n + 1, q, a :: es, b :: fs =>
      if feszCond a b then
        let p := Two_Sum fl q a
        let r := feszMerge fl n p.1 es (b :: fs)
        (if p.2 = 0 then r.1 else p.2 :: r.1, r.2)
      else
        let p := Two_Sum fl q b
        let r := feszMerge fl n p.1 (a :: es) fs
        (if p.2 = 0 then r.1 else p.2 :: r.1, r.2)

/-- Continuation of `fast_expansion_sum_zeroelim` after the initial
selection (`predicates.cpp` lines 422-467): if both inputs still have
components, the first combination uses `Fast_Two_Sum(now, Q)`, then
the merge loop runs; finally the conditional write of `Q`. -/
def feszAfter (fl : ℚ → ℚ) (q : ℚ) (e1 f1 : List ℚ) : List ℚ :=
  match e1, f1 with
  | a :: es, b :: fs =>
      if feszCond a b then
        let p := Fast_Two_Sum fl a q
        let r := feszMerge fl (es.length + (b :: fs).length) p.1 es (b :: fs)
        zfinish (if p.2 = 0 then r.1 else p.2 :: r.1) r.2
      else
        let p := Fast_Two_Sum fl b q
        let r := feszMerge fl ((a :: es).length + fs.length) p.1 (a :: es) fs
        zfinish (if p.2 = 0 then r.1 else p.2 :: r.1) r.2
  | _, _ =>
      let r := feszMerge fl (e1.length + f1.length) q e1 f1
      zfinish r.1 r.2

/-- Function `fast_expansion_sum_zeroelim` (`predicates.cpp` lines 400-468).
The source reads `e[0]` and `f[0]` unconditionally, so empty inputs
are outside its contract; they return `[]` here. -/
def fast_expansion_sum_zeroelim (fl : ℚ → ℚ) (e f : List ℚ) : List ℚ :=
  match e, f with
  | e0 :: es, f0 :: fs =>
      if feszCond e0 f0 then feszAfter fl e0 es (f0 :: fs)
      else feszAfter fl f0 (e0 :: es) fs
  | _, _ => []

/-- Guarded selection of the linear expansion sums (`predicates.cpp`
lines 565-571 and 575-581): take from `e` when `e` is nonempty and
either `f` is exhausted or `feszCond` selects `e`. -/
def lesPick : List ℚ → List ℚ → Option (ℚ × List ℚ × List ℚ)
  | [], [] => none
  | [], b :: fs => some (b, [], fs)
  | a :: es, [] => some (a, es, [])
  | a :: es, b :: fs =>
      if feszCond a b then some (a, es, b :: fs) else some (b, a :: es, fs)

/-- Counted loop of `linear_expansion_sum_zeroelim` (`predicates.cpp`
lines 574-588): each iteration consumes one component, so running
until both inputs are empty is the same as counting to
`elen + flen - 2`.  Returns the kept corrections and the final
`(Q, q)`. -/
def lesLoop (fl : ℚ → ℚ) : ℕ → ℚ → ℚ → List ℚ → List ℚ → List ℚ × ℚ × ℚ
  | 0, bigQ, q, _, _ => ([], bigQ, q)
  | n + 1, bigQ, q, e, f =>
      match lesPick e f with
      | none => ([], bigQ, q)
      | some (now, e2, f2) =>
          let pr := Fast_Two_Sum fl now q
          let ps := Two_Sum fl bigQ pr.1
          let r := lesLoop fl n ps.1 ps.2 e2 f2
          (if pr.2 = 0 then r.1 else pr.2 :: r.1, r.2)

/-- Function `linear_expansion_sum_zeroelim` (`predicates.cpp` lines 541-596).
The first selection reads `e[0]` and `f[0]` unconditionally; fewer
than two components in total are outside the source's contract. -/
def linear_expansion_sum_zeroelim (fl : ℚ → ℚ) (e f : List ℚ) : List ℚ :=
  match e, f with
  | e0 :: es, f0 :: fs =>
      let first := if feszCond e0 f0 then (e0, es, f0 :: fs) else (f0, e0 :: es, fs)
      match lesPick first.2.1 first.2.2 with
      | none => []
      | some (now, e2, f2) =>
          let p0 := Fast_Two_Sum fl now first.1
          let r := lesLoop fl (e2.length + f2.length) p0.1 p0.2 e2 f2
          let h1 := r.1 ++ (if r.2.2 = 0 then [] else [r.2.2])
          if r.2.1 ≠ 0 ∨ h1.isEmpty then h1 ++ [r.2.1] else h1
  | _, _ => []

/-- Loop of `scale_expansion` (`predicates.cpp` lines 629-637): two
`Two_Sum`s per component, both corrections written; the final `Q` is
appended. -/
def seGo (fl : ℚ → ℚ) (splitter b bhi blo : ℚ) : ℚ → List ℚ → List ℚ
  | q, [] => [q]
  | q, x :: rest =>
      let p := Two_Product_Presplit fl splitter x b bhi blo
      let s := Two_Sum fl q p.2
      let t := Two_Sum fl p.1 s.1
      s.2 :: t.2 :: seGo fl splitter b bhi blo t.1 rest

/-- Function `scale_expansion` (`predicates.cpp` lines 611-639). -/
def scale_expansion (fl : ℚ → ℚ) (splitter : ℚ) (e : List ℚ) (b : ℚ) : List ℚ :=
  match e with
  | [] => []
  | x :: rest =>
      let bs := Split fl splitter b
      let p := Two_Product_Presplit fl splitter x b bs.1 bs.2
      p.2 :: seGo fl splitter b bs.1 bs.2 p.1 rest

/-- Loop of `scale_expansion_zeroelim` (`predicates.cpp` lines
677-688): `Two_Sum` then `Fast_Two_Sum` per component, keeping only
nonzero corrections. -/
def sezGo (fl : ℚ → ℚ) (splitter b bhi blo : ℚ) : ℚ → List ℚ → List ℚ × ℚ
  | q, [] => ([], q)
  | q, x :: rest =>
      let p := Two_Product_Presplit fl splitter x b bhi blo
      let s := Two_Sum fl q p.2
      let t := Fast_Two_Sum fl p.1 s.1
      let r := sezGo fl splitter b bhi blo t.1 rest
      ((if s.2 = 0 then [] else [s.2]) ++ (if t.2 = 0 then [] else [t.2]) ++ r.1, r.2)

/-- Function `scale_expansion_zeroelim` (`predicates.cpp` lines 656-693). -/
def scale_expansion_zeroelim (fl : ℚ → ℚ) (splitter : ℚ) (e : List ℚ) (b : ℚ) : List ℚ :=
  match e with
  | [] => []
  | x :: rest =>
      let bs := Split fl splitter b
      let p := Two_Product_Presplit fl splitter x b bs.1 bs.2
      let r := sezGo fl splitter b bs.1 bs.2 p.1 rest
      zfinish ((if p.2 = 0 then [] else [p.2]) ++ r.1) r.2

/-- Function `estimate` (`predicates.cpp` lines 749-759): naive rounded running
sum of the components. -/
def estimate (fl : ℚ → ℚ) (e : List ℚ) : ℚ :=
  match e with
  | [] => 0
  | x :: rest => rest.foldl (fun q y => fl (q + y)) x

/-! ### The error-bound table and `exactinit` -/

/-- The mutable members of the `Predicates` class: `epsilon`,
`splitter` and the thirteen error-bound coefficients, all written only
by `exactinit`. -/
structure PredState where
  epsilon : ℚ
  splitter : ℚ
  resulterrbound : ℚ
  ccwerrboundA : ℚ
  ccwerrboundB : ℚ
  ccwerrboundC : ℚ
  o3derrboundA : ℚ
  o3derrboundB : ℚ
  o3derrboundC : ℚ
  iccerrboundA : ℚ
  iccerrboundB : ℚ
  iccerrboundC : ℚ
  isperrboundA : ℚ
  isperrboundB : ℚ
  isperrboundC : ℚ
  deriving DecidableEq

/-- The do-while loop of `exactinit` (`predicates.cpp` lines 67-75):
state is `(epsilon, splitter, every_other, check)`; one body execution
then the test `(check != 1.0) && (check != lastcheck)`.  Returns the
final `(epsilon, splitter)`.  The fuel (200 at the call site) is never
exhausted: binary64 arithmetic stops the loop after 53 iterations. -/
def exactLoop (fl : ℚ → ℚ) : ℕ → ℚ → ℚ → Bool → ℚ → ℚ × ℚ
  | 0, eps, split, _, _ => (eps, split)
  | n + 1, eps, split, eo, check =>
      let eps2 := fl (eps * (1 / 2))
      let split2 := if eo then fl (split * 2) else split
      let check2 := fl (1 + eps2)
      if check2 ≠ 1 ∧ check2 ≠ check then exactLoop fl n eps2 split2 (!eo) check2
      else (eps2, split2)

/-- Function `exactinit` (`predicates.cpp` lines 55-91): machine-epsilon
discovery loop, then `splitter += 1.0` and the error-bound
coefficients. -/
def exactinit (fl : ℚ → ℚ) : PredState :=
  let r := exactLoop fl 200 1 1 true 1
  let eps := r.1
  { epsilon := eps
    splitter := fl (r.2 + 1)
    resulterrbound := fl (fl (3 + fl (8 * eps)) * eps)
    ccwerrboundA := fl (fl (3 + fl (16 * eps)) * eps)
    ccwerrboundB := fl (fl (2 + fl (12 * eps)) * eps)
    ccwerrboundC := fl (fl (fl (9 + fl (64 * eps)) * eps) * eps)
    o3derrboundA := fl (fl (7 + fl (56 * eps)) * eps)
    o3derrboundB := fl (fl (3 + fl (28 * eps)) * eps)
    o3derrboundC := fl (fl (fl (26 + fl (288 * eps)) * eps) * eps)
    iccerrboundA := fl (fl (10 + fl (96 * eps)) * eps)
    iccerrboundB := fl (fl (4 + fl (48 * eps)) * eps)
    iccerrboundC := fl (fl (fl (44 + fl (576 * eps)) * eps) * eps)
    isperrboundA := fl (fl (16 + fl (224 * eps)) * eps)
    isperrboundB := fl (fl (5 + fl (72 * eps)) * eps)
    isperrboundC := fl (fl (fl (71 + fl (1408 * eps)) * eps) * eps) }

/-- The state `exactinit` computes under binary64 arithmetic. -/
def stateD : PredState := exactinit round64

/-! ### The 2D orientation predicate -/

/-- A point is a pair of coordinates `(p[0], p[1])`. -/
abbrev Point := ℚ × ℚ

/-- The exact real determinant that `orient2d` resolves the sign of:
`(pa[0]-pc[0])*(pb[1]-pc[1]) - (pa[1]-pc[1])*(pb[0]-pc[0])`
(`predicates.cpp` lines 1000-1002, read with exact arithmetic). -/
def orient2dExact (pa pb pc : Point) : ℚ :=
  (pa.1 - pc.1) * (pb.2 - pc.2) - (pa.2 - pc.2) * (pb.1 - pc.1)

/-- Function `orient2dadapt` (`predicates.cpp` lines 915-993). -/
def orient2dadapt (fl : ℚ → ℚ) (s : PredState) (pa pb pc : Point) (detsum : ℚ) : ℚ :=
  let acx := fl (pa.1 - pc.1)
  let bcx := fl (pb.1 - pc.1)
  let acy := fl (pa.2 - pc.2)
  let bcy := fl (pb.2 - pc.2)
  let dl := Two_Product fl s.splitter acx bcy
  let dr := Two_Product fl s.splitter acy bcx
  let b4 := Two_Two_Diff fl dl.1 dl.2 dr.1 dr.2
  let bList : List ℚ := [b4.2.2.2, b4.2.2.1, b4.2.1, b4.1]
  let det := estimate fl bList
  let errbound := fl (s.ccwerrboundB * detsum)
  if det ≥ errbound ∨ -det ≥ errbound then det
  else
    let acxtail := Two_Diff_Tail fl pa.1 pc.1 acx
    let bcxtail := Two_Diff_Tail fl pb.1 pc.1 bcx
    let acytail := Two_Diff_Tail fl pa.2 pc.2 acy
    let bcytail := Two_Diff_Tail fl pb.2 pc.2 bcy
    if acxtail = 0 ∧ acytail = 0 ∧ bcxtail = 0 ∧ bcytail = 0 then det
    else
      let errbound2 := fl (fl (s.ccwerrboundC * detsum) + fl (s.resulterrbound * Absolute det))
      let det2 := fl (det + fl (fl (fl (acx * bcytail) + fl (bcy * acxtail))
        - fl (fl (acy * bcxtail) + fl (bcx * acytail))))
      if det2 ≥ errbound2 ∨ -det2 ≥ errbound2 then det2
      else
        let s1 := Two_Product fl s.splitter acxtail bcy
        let t1 := Two_Product fl s.splitter acytail bcx
        let u1 := Two_Two_Diff fl s1.1 s1.2 t1.1 t1.2
        let c1 := fast_expansion_sum_zeroelim fl bList [u1.2.2.2, u1.2.2.1, u1.2.1, u1.1]
        let s2 := Two_Product fl s.splitter acx bcytail
        let t2 := Two_Product fl s.splitter acy bcxtail
        let u2 := Two_Two_Diff fl s2.1 s2.2 t2.1 t2.2
        let c2 := fast_expansion_sum_zeroelim fl c1 [u2.2.2.2, u2.2.2.1, u2.2.1, u2.1]
        let s3 := Two_Product fl s.splitter acxtail bcytail
        let t3 := Two_Product fl s.splitter acytail bcxtail
        let u3 := Two_Two_Diff fl s3.1 s3.2 t3.1 t3.2
        let d := fast_expansion_sum_zeroelim fl c2 [u3.2.2.2, u3.2.2.1, u3.2.1, u3.1]
        d.getLastD 0

/-- Function `orient2d` (`predicates.cpp` lines 995-1023): fast tier, bound
check, escalation to `orient2dadapt`. -/
def orient2d (fl : ℚ → ℚ) (s : PredState) (pa pb pc : Point) : ℚ :=
  let detleft := fl (fl (pa.1 - pc.1) * fl (pb.2 - pc.2))
  let detright := fl (fl (pa.2 - pc.2) * fl (pb.1 - pc.1))
  let det := fl (detleft - detright)
  let rest := fun detsum =>
    let errbound := fl (s.ccwerrboundA * detsum)
    if det ≥ errbound ∨ -det ≥ errbound then det
    else orient2dadapt fl s pa pb pc detsum
  if detleft > 0 then
    if detright ≤ 0 then det else rest (fl (detleft + detright))
  else if detleft < 0 then
    if detright ≥ 0 then det else rest (fl (-detleft - detright))
  else det

/-- Function `AdaptDiffOfProdsOfDiffs` (`predicates.cpp` lines 798-875). -/
def AdaptDiffOfProdsOfDiffs (fl : ℚ → ℚ) (s : PredState)
    (terma termb termc termd terme termf termg termh sum : ℚ) : ℚ :=
  let diff1 := fl (terma - termb)
  let diff2 := fl (termc - termd)
  let diff3 := fl (terme - termf)
  let diff4 := fl (termg - termh)
  let lp := Two_Product fl s.splitter diff1 diff2
  let rp := Two_Product fl s.splitter diff3 diff4
  let b4 := Two_Two_Diff fl lp.1 lp.2 rp.1 rp.2
  let bList : List ℚ := [b4.2.2.2, b4.2.2.1, b4.2.1, b4.1]
  let diff := estimate fl bList
  let errbound := fl (s.ccwerrboundB * sum)
  if diff ≥ errbound ∨ -diff ≥ errbound then diff
  else
    let diff1tail := Two_Diff_Tail fl terma termb diff1
    let diff2tail := Two_Diff_Tail fl termc termd diff2
    let diff3tail := Two_Diff_Tail fl terme termf diff3
    let diff4tail := Two_Diff_Tail fl termg termh diff4
    if diff1tail = 0 ∧ diff2tail = 0 ∧ diff3tail = 0 ∧ diff4tail = 0 then diff
    else
      let errbound2 := fl (fl (s.ccwerrboundC * sum) + fl (s.resulterrbound * Absolute diff))
      let diffB := fl (diff + fl (fl (fl (diff1 * diff2tail) + fl (diff2 * diff1tail))
        - fl (fl (diff3 * diff4tail) + fl (diff4 * diff3tail))))
      if diffB ≥ errbound2 ∨ -diffB ≥ errbound2 then diffB
      else
        let s1 := Two_Product fl s.splitter diff1tail diff2
        let t1 := Two_Product fl s.splitter diff3tail diff4
        let u1 := Two_Two_Diff fl s1.1 s1.2 t1.1 t1.2
        let c1 := fast_expansion_sum_zeroelim fl bList [u1.2.2.2, u1.2.2.1, u1.2.1, u1.1]
        let s2 := Two_Product fl s.splitter diff1 diff2tail
        let t2 := Two_Product fl s.splitter diff3 diff4tail
        let u2 := Two_Two_Diff fl s2.1 s2.2 t2.1 t2.2
        let c2 := fast_expansion_sum_zeroelim fl c1 [u2.2.2.2, u2.2.2.1, u2.2.1, u2.1]
        let s3 := Two_Product fl s.splitter diff1tail diff2tail
        let t3 := Two_Product fl s.splitter diff3tail diff4tail
        let u3 := Two_Two_Diff fl s3.1 s3.2 t3.1 t3.2
        let d := fast_expansion_sum_zeroelim fl c2 [u3.2.2.2, u3.2.2.1, u3.2.1, u3.1]
        d.getLastD 0

/-- Function `DifferenceOfProductsOfDifferences` (`predicates.cpp` lines
769-796): adaptive evaluation of `(a-b)*(c-d) - (e-f)*(g-h)`. -/
def DifferenceOfProductsOfDifferences (fl : ℚ → ℚ) (s : PredState)
    (a b c d e f g h : ℚ) : ℚ :=
  let left := fl (fl (a - b) * fl (c - d))
  let right := fl (fl (e - f) * fl (g - h))
  let diff := fl (left - right)
  let rest := fun sum =>
    let errbound := fl (s.ccwerrboundA * sum)
    if diff ≥ errbound ∨ -diff ≥ errbound then diff
    else AdaptDiffOfProdsOfDiffs fl s a b c d e f g h sum
  if left > 0 then
    if right ≤ 0 then diff else rest (fl (left + right))
  else if left < 0 then
    if right ≥ 0 then diff else rest (fl (-left - right))
  else diff

/-! ### The in-circle predicate -/

/-- Function `incircleadapt` (`predicates.cpp` lines 1075-1643).  The source
computes the scratch expansions (`aa`, `bb`, `cc`, `axtbc`, ...)
inside conditional blocks and leaves them uninitialised otherwise;
they are computed unconditionally here, which yields the same result
because every later read is guarded by a condition that implies the
source computed them.  The `finnow`/`finother` buffer swaps become
rebindings of `fin`. -/
def incircleadapt (fl : ℚ → ℚ) (s : PredState) (pa pb pc pd : Point) (permanent : ℚ) : ℚ :=
  let adx := fl (pa.1 - pd.1)
  let bdx := fl (pb.1 - pd.1)
  let cdx := fl (pc.1 - pd.1)
  let ady := fl (pa.2 - pd.2)
  let bdy := fl (pb.2 - pd.2)
  let cdy := fl (pc.2 - pd.2)
  let p1 := Two_Product fl s.splitter bdx cdy
  let p2 := Two_Product fl s.splitter cdx bdy
  let bc4 := Two_Two_Diff fl p1.1 p1.2 p2.1 p2.2
  let bc : List ℚ := [bc4.2.2.2, bc4.2.2.1, bc4.2.1, bc4.1]
  let axbc := scale_expansion_zeroelim fl s.splitter bc adx
  let axxbc := scale_expansion_zeroelim fl s.splitter axbc adx
  let aybc := scale_expansion_zeroelim fl s.splitter bc ady
  let ayybc := scale_expansion_zeroelim fl s.splitter aybc ady
  let adet := fast_expansion_sum_zeroelim fl axxbc ayybc
  let p3 := Two_Product fl s.splitter cdx ady
  let p4 := Two_Product fl s.splitter adx cdy
  let ca4 := Two_Two_Diff fl p3.1 p3.2 p4.1 p4.2
  let ca : List ℚ := [ca4.2.2.2, ca4.2.2.1, ca4.2.1, ca4.1]
  let bxca := scale_expansion_zeroelim fl s.splitter ca bdx
  let bxxca := scale_expansion_zeroelim fl s.splitter bxca bdx
  let byca := scale_expansion_zeroelim fl s.splitter ca bdy
  let byyca := scale_expansion_zeroelim fl s.splitter byca bdy
  let bdet := fast_expansion_sum_zeroelim fl bxxca byyca
  let p5 := Two_Product fl s.splitter adx bdy
  let p6 := Two_Product fl s.splitter bdx ady
  let ab4 := Two_Two_Diff fl p5.1 p5.2 p6.1 p6.2
  let ab : List ℚ := [ab4.2.2.2, ab4.2.2.1, ab4.2.1, ab4.1]
  let cxab := scale_expansion_zeroelim fl s.splitter ab cdx
  let cxxab := scale_expansion_zeroelim fl s.splitter cxab cdx
  let cyab := scale_expansion_zeroelim fl s.splitter ab cdy
  let cyyab := scale_expansion_zeroelim fl s.splitter cyab cdy
  let cdet := fast_expansion_sum_zeroelim fl cxxab cyyab
  let abdet := fast_expansion_sum_zeroelim fl adet bdet
  let fin1 := fast_expansion_sum_zeroelim fl abdet cdet
  let det := estimate fl fin1
  let errbound := fl (s.iccerrboundB * permanent)
  if det ≥ errbound ∨ -det ≥ errbound then det
  else
    let adxtail := Two_Diff_Tail fl pa.1 pd.1 adx
    let adytail := Two_Diff_Tail fl pa.2 pd.2 ady
    let bdxtail := Two_Diff_Tail fl pb.1 pd.1 bdx
    let bdytail := Two_Diff_Tail fl pb.2 pd.2 bdy
    let cdxtail := Two_Diff_Tail fl pc.1 pd.1 cdx
    let cdytail := Two_Diff_Tail fl pc.2 pd.2 cdy
    if adxtail = 0 ∧ bdxtail = 0 ∧ cdxtail = 0 ∧ adytail = 0 ∧ bdytail = 0 ∧ cdytail = 0 then det
    else
      let errbound2 := fl (fl (s.iccerrboundC * permanent) + fl (s.resulterrbound * Absolute det))
      let ta := fl (fl (fl (fl (adx * adx) + fl (ady * ady))
          * fl (fl (fl (bdx * cdytail) + fl (cdy * bdxtail))
              - fl (fl (bdy * cdxtail) + fl (cdx * bdytail))))
        + fl (fl (2 * fl (fl (adx * adxtail) + fl (ady * adytail)))
          * fl (fl (bdx * cdy) - fl (bdy * cdx))))
      let tb := fl (fl (fl (fl (bdx * bdx) + fl (bdy * bdy))
          * fl (fl (fl (cdx * adytail) + fl (ady * cdxtail))
              - fl (fl (cdy * adxtail) + fl (adx * cdytail))))
        + fl (fl (2 * fl (fl (bdx * bdxtail) + fl (bdy * bdytail)))
          * fl (fl (cdx * ady) - fl (cdy * adx))))
      let tc := fl (fl (fl (fl (cdx * cdx) + fl (cdy * cdy))
          * fl (fl (fl (adx * bdytail) + fl (bdy * adxtail))
              - fl (fl (ady * bdxtail) + fl (bdx * adytail))))
        + fl (fl (2 * fl (fl (cdx * cdxtail) + fl (cdy * cdytail)))
          * fl (fl (adx * bdy) - fl (ady * bdx))))
      let det2 := fl (det + fl (fl (ta + tb) + tc))
      if det2 ≥ errbound2 ∨ -det2 ≥ errbound2 then det2
      else
        let sqax := Square fl s.splitter adx
        let sqay := Square fl s.splitter ady
        let aa4 := Two_Two_Sum fl sqax.1 sqax.2 sqay.1 sqay.2
        let aa : List ℚ := [aa4.2.2.2, aa4.2.2.1, aa4.2.1, aa4.1]
        let sqbx := Square fl s.splitter bdx
        let sqby := Square fl s.splitter bdy
        let bb4 := Two_Two_Sum fl sqbx.1 sqbx.2 sqby.1 sqby.2
        let bb : List ℚ := [bb4.2.2.2, bb4.2.2.1, bb4.2.1, bb4.1]
        let sqcx := Square fl s.splitter cdx
        let sqcy := Square fl s.splitter cdy
        let cc4 := Two_Two_Sum fl sqcx.1 sqcx.2 sqcy.1 sqcy.2
        let cc : List ℚ := [cc4.2.2.2, cc4.2.2.1, cc4.2.1, cc4.1]
        let axtbc := scale_expansion_zeroelim fl s.splitter bc adxtail
        let aytbc := scale_expansion_zeroelim fl s.splitter bc adytail
        let bxtca := scale_expansion_zeroelim fl s.splitter ca bdxtail
        let bytca := scale_expansion_zeroelim fl s.splitter ca bdytail
        let cxtab := scale_expansion_zeroelim fl s.splitter ab cdxtail
        let cytab := scale_expansion_zeroelim fl s.splitter ab cdytail
        let finA := if adxtail ≠ 0 then
            let t16a := scale_expansion_zeroelim fl s.splitter axtbc (fl (2 * adx))
            let axtcc := scale_expansion_zeroelim fl s.splitter cc adxtail
            let t16b := scale_expansion_zeroelim fl s.splitter axtcc bdy
            let axtbb := scale_expansion_zeroelim fl s.splitter bb adxtail
            let t16c := scale_expansion_zeroelim fl s.splitter axtbb (-cdy)
            let t32a := fast_expansion_sum_zeroelim fl t16a t16b
            let t48 := fast_expansion_sum_zeroelim fl t16c t32a
            fast_expansion_sum_zeroelim fl fin1 t48
          else fin1
        let finB := if adytail ≠ 0 then
            let t16a := scale_expansion_zeroelim fl s.splitter aytbc (fl (2 * ady))
            let aytbb := scale_expansion_zeroelim fl s.splitter bb adytail
            let t16b := scale_expansion_zeroelim fl s.splitter aytbb cdx
            let aytcc := scale_expansion_zeroelim fl s.splitter cc adytail
            let t16c := scale_expansion_zeroelim fl s.splitter aytcc (-bdx)
            let t32a := fast_expansion_sum_zeroelim fl t16a t16b
            let t48 := fast_expansion_sum_zeroelim fl t16c t32a
            fast_expansion_sum_zeroelim fl finA t48
          else finA
        let finC := if bdxtail ≠ 0 then
            let t16a := scale_expansion_zeroelim fl s.splitter bxtca (fl (2 * bdx))
            let bxtaa := scale_expansion_zeroelim fl s.splitter aa bdxtail
            let t16b := scale_expansion_zeroelim fl s.splitter bxtaa cdy
            let bxtcc := scale_expansion_zeroelim fl s.splitter cc bdxtail
            let t16c := scale_expansion_zeroelim fl s.splitter bxtcc (-ady)
            let t32a := fast_expansion_sum_zeroelim fl t16a t16b
            let t48 := fast_expansion_sum_zeroelim fl t16c t32a
            fast_expansion_sum_zeroelim fl finB t48
          else finB
        let finD := if bdytail ≠ 0 then
            let t16a := scale_expansion_zeroelim fl s.splitter bytca (fl (2 * bdy))
            let bytcc := scale_expansion_zeroelim fl s.splitter cc bdytail
            let t16b := scale_expansion_zeroelim fl s.splitter bytcc adx
            let bytaa := scale_expansion_zeroelim fl s.splitter aa bdytail
            let t16c := scale_expansion_zeroelim fl s.splitter bytaa (-cdx)
            let t32a := fast_expansion_sum_zeroelim fl t16a t16b
            let t48 := fast_expansion_sum_zeroelim fl t16c t32a
            fast_expansion_sum_zeroelim fl finC t48
          else finC
        let finE := if cdxtail ≠ 0 then
            let t16a := scale_expansion_zeroelim fl s.splitter cxtab (fl (2 * cdx))
            let cxtbb := scale_expansion_zeroelim fl s.splitter bb cdxtail
            let t16b := scale_expansion_zeroelim fl s.splitter cxtbb ady
            let cxtaa := scale_expansion_zeroelim fl s.splitter aa cdxtail
            let t16c := scale_expansion_zeroelim fl s.splitter cxtaa (-bdy)
            let t32a := fast_expansion_sum_zeroelim fl t16a t16b
            let t48 := fast_expansion_sum_zeroelim fl t16c t32a
            fast_expansion_sum_zeroelim fl finD t48
          else finD
        let finF := if cdytail ≠ 0 then
            let t16a := scale_expansion_zeroelim fl s.splitter cytab (fl (2 * cdy))
            let cytaa := scale_expansion_zeroelim fl s.splitter aa cdytail
            let t16b := scale_expansion_zeroelim fl s.splitter cytaa bdx
            let cytbb := scale_expansion_zeroelim fl s.splitter bb cdytail
            let t16c := scale_expansion_zeroelim fl s.splitter cytbb (-adx)
            let t32a := fast_expansion_sum_zeroelim fl t16a t16b
            let t48 := fast_expansion_sum_zeroelim fl t16c t32a
            fast_expansion_sum_zeroelim fl finE t48
          else finE
        let bctPair :=
          if bdxtail ≠ 0 ∨ bdytail ≠ 0 ∨ cdxtail ≠ 0 ∨ cdytail ≠ 0 then
            let ti := Two_Product fl s.splitter bdxtail cdy
            let tj := Two_Product fl s.splitter bdx cdytail
            let u4 := Two_Two_Sum fl ti.1 ti.2 tj.1 tj.2
            let ti2 := Two_Product fl s.splitter cdxtail (-bdy)
            let tj2 := Two_Product fl s.splitter cdx (-bdytail)
            let v4 := Two_Two_Sum fl ti2.1 ti2.2 tj2.1 tj2.2
            let bct := fast_expansion_sum_zeroelim fl
              [u4.2.2.2, u4.2.2.1, u4.2.1, u4.1] [v4.2.2.2, v4.2.2.1, v4.2.1, v4.1]
            let ti3 := Two_Product fl s.splitter bdxtail cdytail
            let tj3 := Two_Product fl s.splitter cdxtail bdytail
            let w4 := Two_Two_Diff fl ti3.1 ti3.2 tj3.1 tj3.2
            (bct, [w4.2.2.2, w4.2.2.1, w4.2.1, w4.1])
          else (([0] : List ℚ), ([0] : List ℚ))
        let bct := bctPair.1
        let bctt := bctPair.2
        let axtbct := scale_expansion_zeroelim fl s.splitter bct adxtail
        let finG := if adxtail ≠ 0 then
            let t16a := scale_expansion_zeroelim fl s.splitter axtbc adxtail
            let t32a := scale_expansion_zeroelim fl s.splitter axtbct (fl (2 * adx))
            let t48 := fast_expansion_sum_zeroelim fl t16a t32a
            let finx := fast_expansion_sum_zeroelim fl finF t48
            let finy := if bdytail ≠ 0 then
                let t8 := scale_expansion_zeroelim fl s.splitter cc adxtail
                let t16a2 := scale_expansion_zeroelim fl s.splitter t8 bdytail
                fast_expansion_sum_zeroelim fl finx t16a2
              else finx
            let finz := if cdytail ≠ 0 then
                let t8 := scale_expansion_zeroelim fl s.splitter bb (-adxtail)
                let t16a2 := scale_expansion_zeroelim fl s.splitter t8 cdytail
                fast_expansion_sum_zeroelim fl finy t16a2
              else finy
            let t32a2 := scale_expansion_zeroelim fl s.splitter axtbct adxtail
            let axtbctt := scale_expansion_zeroelim fl s.splitter bctt adxtail
            let t16a3 := scale_expansion_zeroelim fl s.splitter axtbctt (fl (2 * adx))
            let t16b3 := scale_expansion_zeroelim fl s.splitter axtbctt adxtail
            let t32b := fast_expansion_sum_zeroelim fl t16a3 t16b3
            let t64 := fast_expansion_sum_zeroelim fl t32a2 t32b
            fast_expansion_sum_zeroelim fl finz t64
          else finF
        let aytbct := scale_expansion_zeroelim fl s.splitter bct adytail
        let finH := if adytail ≠ 0 then
            let t16a := scale_expansion_zeroelim fl s.splitter aytbc adytail
            let t32a := scale_expansion_zeroelim fl s.splitter aytbct (fl (2 * ady))
            let t48 := fast_expansion_sum_zeroelim fl t16a t32a
            let finx := fast_expansion_sum_zeroelim fl finG t48
            let t32a2 := scale_expansion_zeroelim fl s.splitter aytbct adytail
            let aytbctt := scale_expansion_zeroelim fl s.splitter bctt adytail
            let t16a3 := scale_expansion_zeroelim fl s.splitter aytbctt (fl (2 * ady))
            let t16b3 := scale_expansion_zeroelim fl s.splitter aytbctt adytail
            let t32b := fast_expansion_sum_zeroelim fl t16a3 t16b3
            let t64 := fast_expansion_sum_zeroelim fl t32a2 t32b
            fast_expansion_sum_zeroelim fl finx t64
          else finG
        let catPair :=
          if cdxtail ≠ 0 ∨ cdytail ≠ 0 ∨ adxtail ≠ 0 ∨ adytail ≠ 0 then
            let ti := Two_Product fl s.splitter cdxtail ady
            let tj := Two_Product fl s.splitter cdx adytail
            let u4 := Two_Two_Sum fl ti.1 ti.2 tj.1 tj.2
            let ti2 := Two_Product fl s.splitter adxtail (-cdy)
            let tj2 := Two_Product fl s.splitter adx (-cdytail)
            let v4 := Two_Two_Sum fl ti2.1 ti2.2 tj2.1 tj2.2
            let cat := fast_expansion_sum_zeroelim fl
              [u4.2.2.2, u4.2.2.1, u4.2.1, u4.1] [v4.2.2.2, v4.2.2.1, v4.2.1, v4.1]
            let ti3 := Two_Product fl s.splitter cdxtail adytail
            let tj3 := Two_Product fl s.splitter adxtail cdytail
            let w4 := Two_Two_Diff fl ti3.1 ti3.2 tj3.1 tj3.2
            (cat, [w4.2.2.2, w4.2.2.1, w4.2.1, w4.1])
          else (([0] : List ℚ), ([0] : List ℚ))
        let cat := catPair.1
        let catt := catPair.2
        let bxtcat := scale_expansion_zeroelim fl s.splitter cat bdxtail
        let finI := if bdxtail ≠ 0 then
            let t16a := scale_expansion_zeroelim fl s.splitter bxtca bdxtail
            let t32a := scale_expansion_zeroelim fl s.splitter bxtcat (fl (2 * bdx))
            let t48 := fast_expansion_sum_zeroelim fl t16a t32a
            let finx := fast_expansion_sum_zeroelim fl finH t48
            let finy := if cdytail ≠ 0 then
                let t8 := scale_expansion_zeroelim fl s.splitter aa bdxtail
                let t16a2 := scale_expansion_zeroelim fl s.splitter t8 cdytail
                fast_expansion_sum_zeroelim fl finx t16a2
              else finx
            let finz := if adytail ≠ 0 then
                let t8 := scale_expansion_zeroelim fl s.splitter cc (-bdxtail)
                let t16a2 := scale_expansion_zeroelim fl s.splitter t8 adytail
                fast_expansion_sum_zeroelim fl finy t16a2
              else finy
            let t32a2 := scale_expansion_zeroelim fl s.splitter bxtcat bdxtail
            let bxtcatt := scale_expansion_zeroelim fl s.splitter catt bdxtail
            let t16a3 := scale_expansion_zeroelim fl s.splitter bxtcatt (fl (2 * bdx))
            let t16b3 := scale_expansion_zeroelim fl s.splitter bxtcatt bdxtail
            let t32b := fast_expansion_sum_zeroelim fl t16a3 t16b3
            let t64 := fast_expansion_sum_zeroelim fl t32a2 t32b
            fast_expansion_sum_zeroelim fl finz t64
          else finH
        let bytcat := scale_expansion_zeroelim fl s.splitter cat bdytail
        let finJ := if bdytail ≠ 0 then
            let t16a := scale_expansion_zeroelim fl s.splitter bytca bdytail
            let t32a := scale_expansion_zeroelim fl s.splitter bytcat (fl (2 * bdy))
            let t48 := fast_expansion_sum_zeroelim fl t16a t32a
            let finx := fast_expansion_sum_zeroelim fl finI t48
            let t32a2 := scale_expansion_zeroelim fl s.splitter bytcat bdytail
            let bytcatt := scale_expansion_zeroelim fl s.splitter catt bdytail
            let t16a3 := scale_expansion_zeroelim fl s.splitter bytcatt (fl (2 * bdy))
            let t16b3 := scale_expansion_zeroelim fl s.splitter bytcatt bdytail
            let t32b := fast_expansion_sum_zeroelim fl t16a3 t16b3
            let t64 := fast_expansion_sum_zeroelim fl t32a2 t32b
            fast_expansion_sum_zeroelim fl finx t64
          else finI
        let abtPair :=
          if adxtail ≠ 0 ∨ adytail ≠ 0 ∨ bdxtail ≠ 0 ∨ bdytail ≠ 0 then
            let ti := Two_Product fl s.splitter adxtail bdy
            let tj := Two_Product fl s.splitter adx bdytail
            let u4 := Two_Two_Sum fl ti.1 ti.2 tj.1 tj.2
            let ti2 := Two_Product fl s.splitter bdxtail (-ady)
            let tj2 := Two_Product fl s.splitter bdx (-adytail)
            let v4 := Two_Two_Sum fl ti2.1 ti2.2 tj2.1 tj2.2
            let abt := fast_expansion_sum_zeroelim fl
              [u4.2.2.2, u4.2.2.1, u4.2.1, u4.1] [v4.2.2.2, v4.2.2.1, v4.2.1, v4.1]
            let ti3 := Two_Product fl s.splitter adxtail bdytail
            let tj3 := Two_Product fl s.splitter bdxtail adytail
            let w4 := Two_Two_Diff fl ti3.1 ti3.2 tj3.1 tj3.2
            (abt, [w4.2.2.2, w4.2.2.1, w4.2.1, w4.1])
          else (([0] : List ℚ), ([0] : List ℚ))
        let abt := abtPair.1
        let abtt := abtPair.2
        let cxtabt := scale_expansion_zeroelim fl s.splitter abt cdxtail
        let finK := if cdxtail ≠ 0 then
            let t16a := scale_expansion_zeroelim fl s.splitter cxtab cdxtail
            let t32a := scale_expansion_zeroelim fl s.splitter cxtabt (fl (2 * cdx))
            let t48 := fast_expansion_sum_zeroelim fl t16a t32a
            let finx := fast_expansion_sum_zeroelim fl finJ t48
            let finy := if adytail ≠ 0 then
                let t8 := scale_expansion_zeroelim fl s.splitter bb cdxtail
                let t16a2 := scale_expansion_zeroelim fl s.splitter t8 adytail
                fast_expansion_sum_zeroelim fl finx t16a2
              else finx
            let finz := if bdytail ≠ 0 then
                let t8 := scale_expansion_zeroelim fl s.splitter aa (-cdxtail)
                let t16a2 := scale_expansion_zeroelim fl s.splitter t8 bdytail
                fast_expansion_sum_zeroelim fl finy t16a2
              else finy
            let t32a2 := scale_expansion_zeroelim fl s.splitter cxtabt cdxtail
            let cxtabtt := scale_expansion_zeroelim fl s.splitter abtt cdxtail
            let t16a3 := scale_expansion_zeroelim fl s.splitter cxtabtt (fl (2 * cdx))
            let t16b3 := scale_expansion_zeroelim fl s.splitter cxtabtt cdxtail
            let t32b := fast_expansion_sum_zeroelim fl t16a3 t16b3
            let t64 := fast_expansion_sum_zeroelim fl t32a2 t32b
            fast_expansion_sum_zeroelim fl finz t64
          else finJ
        let cytabt := scale_expansion_zeroelim fl s.splitter abt cdytail
        let finL := if cdytail ≠ 0 then
            let t16a := scale_expansion_zeroelim fl s.splitter cytab cdytail
            let t32a := scale_expansion_zeroelim fl s.splitter cytabt (fl (2 * cdy))
            let t48 := fast_expansion_sum_zeroelim fl t16a t32a
            let finx := fast_expansion_sum_zeroelim fl finK t48
            let t32a2 := scale_expansion_zeroelim fl s.splitter cytabt cdytail
            let cytabtt := scale_expansion_zeroelim fl s.splitter abtt cdytail
            let t16a3 := scale_expansion_zeroelim fl s.splitter cytabtt (fl (2 * cdy))
            let t16b3 := scale_expansion_zeroelim fl s.splitter cytabtt cdytail
            let t32b := fast_expansion_sum_zeroelim fl t16a3 t16b3
            let t64 := fast_expansion_sum_zeroelim fl t32a2 t32b
            fast_expansion_sum_zeroelim fl finx t64
          else finK
        finL.getLastD 0

/-- Function `incircle` (`predicates.cpp` lines 1645-1685): fast tier with the
`permanent` magnitude estimate, strict bound check, escalation to
`incircleadapt`. -/
def incircle (fl : ℚ → ℚ) (s : PredState) (pa pb pc pd : Point) : ℚ :=
  let adx := fl (pa.1 - pd.1)
  let bdx := fl (pb.1 - pd.1)
  let cdx := fl (pc.1 - pd.1)
  let ady := fl (pa.2 - pd.2)
  let bdy := fl (pb.2 - pd.2)
  let cdy := fl (pc.2 - pd.2)
  let bdxcdy := fl (bdx * cdy)
  let cdxbdy := fl (cdx * bdy)
  let alift := fl (fl (adx * adx) + fl (ady * ady))
  let cdxady := fl (cdx * ady)
  let adxcdy := fl (adx * cdy)
  let blift := fl (fl (bdx * bdx) + fl (bdy * bdy))
  let adxbdy := fl (adx * bdy)
  let bdxady := fl (bdx * ady)
  let clift := fl (fl (cdx * cdx) + fl (cdy * cdy))
  let det := fl (fl (fl (alift * fl (bdxcdy - cdxbdy))
    + fl (blift * fl (cdxady - adxcdy))) + fl (clift * fl (adxbdy - bdxady)))
  let permanent := fl (fl (fl (fl (Absolute bdxcdy + Absolute cdxbdy) * alift)
    + fl (fl (Absolute cdxady + Absolute adxcdy) * blift))
    + fl (fl (Absolute adxbdy + Absolute bdxady) * clift))
  let errbound := fl (s.iccerrboundA * permanent)
  if det > errbound ∨ -det > errbound then det
  else incircleadapt fl s pa pb pc pd permanent

/-! ### Call-level view of the predicates

The C++ entry points are member functions of the `Predicates` object;
`orient2d`, `orient2dadapt`, `incircle` and `incircleadapt` only read
the members written by `exactinit` (`splitter` and the error bounds)
and never assign any member, so a call maps the ambient state to
itself together with the returned value. -/

/-- One call of `Predicates::orient2d` on a state: returns the state
after the call and the returned value. -/
def orient2dCall (fl : ℚ → ℚ) (s : PredState) (pa pb pc : Point) : PredState × ℚ :=
  (s, orient2d fl s pa pb pc)

/-- One call of `Predicates::incircle` on a state: returns the state
after the call and the returned value. -/
def incircleCall (fl : ℚ → ℚ) (s : PredState) (pa pb pc pd : Point) : PredState × ℚ :=
  (s, incircle fl s pa pb pc pd)

/-- The value of every member of `stateD`, as computed by `exactinit`
under binary64 arithmetic (`stateD_eval` below). -/
def stateDval : PredState :=
  { epsilon := 1 / 9007199254740992
    splitter := 134217729
    resulterrbound := 3377699720527873 / 10141204801825835211973625643008
    ccwerrboundA := 1688849860263937 / 5070602400912917605986812821504
    ccwerrboundB := 4503599627370499 / 20282409603651670423947251286016
    ccwerrboundC := 1266637395197953 / 11417981541647679048466287755595961091061972992
    o3derrboundA := 7881299347898375 / 10141204801825835211973625643008
    o3derrboundB := 6755399441055751 / 20282409603651670423947251286016
    o3derrboundC := 7318349394477065 / 22835963083295358096932575511191922182123945984
    iccerrboundA := 2814749767106563 / 2535301200456458802993406410752
    iccerrboundB := 2251799813685251 / 5070602400912917605986812821504
    iccerrboundC := 6192449487634441 / 11417981541647679048466287755595961091061972992
    isperrboundA := 4503599627370503 / 2535301200456458802993406410752
    isperrboundB := 5629499534213129 / 10141204801825835211973625643008
    isperrboundC := 4996180836614155 / 5708990770823839524233143877797980545530986496 }

end Predicates

namespace Predicates

/-! ### Properties of the error-free primitives under a given rounding -/

/-- The floating-point numbers of a rounding `fl`: the values in its
range.  For `round64` these are exactly the binary64 values (every
dyadic rational with at most 53 significant bits is its own rounding);
for the identity rounding every rational is a float. -/
def IsFloat (fl : ℚ → ℚ) (q : ℚ) : Prop := ∃ u, fl u = q

/-- A rounding under which `Two_Sum` is an exact decomposition on
floating-point operands: `x + y = a + b` whenever `a` and `b` are in
the rounding's range.  Knuth's theorem states that IEEE-754
round-to-nearest arithmetic is such a rounding (without restriction in
the unbounded-exponent model used here, where no overflow occurs); the
identity rounding of exact arithmetic is another instance. -/
def TwoSumExact (fl : ℚ → ℚ) : Prop :=
  ∀ a b : ℚ, IsFloat fl a → IsFloat fl b →
    (Two_Sum fl a b).1 + (Two_Sum fl a b).2 = a + b

/-- A rounding and splitter under which `Two_Product` (Dekker's
algorithm, used through `Split` and `Two_Product_Presplit`) is an
exact decomposition on floating-point operands: `x + y = a * b`
whenever `a` and `b` are in the rounding's range.  Dekker's theorem
states that IEEE-754 round-to-nearest arithmetic with the `splitter`
computed by `exactinit` is such a pair; the identity rounding is
another instance. -/
def TwoProductExact (fl : ℚ → ℚ) (splitter : ℚ) : Prop :=
  ∀ a b : ℚ, IsFloat fl a → IsFloat fl b →
    (Two_Product fl splitter a b).1 + (Two_Product fl splitter a b).2 = a * b

theorem isFloat_id (q : ℚ) : IsFloat id q := ⟨q, rfl⟩

theorem twoSumExact_id : TwoSumExact id := by
  intro a b _ _
  simp [Two_Sum]

theorem twoProductExact_id (splitter : ℚ) : TwoProductExact id splitter := by
  intro a b _ _
  simp [Two_Product, Two_Product_Presplit, Split]

theorem isFloat_two_sum_fst (fl : ℚ → ℚ) (a b : ℚ) : IsFloat fl (Two_Sum fl a b).1 :=
  ⟨a + b, rfl⟩

theorem isFloat_two_sum_snd (fl : ℚ → ℚ) (a b : ℚ) : IsFloat fl (Two_Sum fl a b).2 := by
  unfold Two_Sum
  exact ⟨_, rfl⟩

theorem isFloat_tpp_fst (fl : ℚ → ℚ) (splitter a b bhi blo : ℚ) :
    IsFloat fl (Two_Product_Presplit fl splitter a b bhi blo).1 :=
  ⟨a * b, rfl⟩

theorem isFloat_tpp_snd (fl : ℚ → ℚ) (splitter a b bhi blo : ℚ) :
    IsFloat fl (Two_Product_Presplit fl splitter a b bhi blo).2 := by
  unfold Two_Product_Presplit
  exact ⟨_, rfl⟩

/-! ### Value and length lemmas for the expansion algebra -/

theorem grow_expansion_mem (fl : ℚ → ℚ) :
    ∀ (e : List ℚ) (b : ℚ), IsFloat fl b →
      ∀ x ∈ grow_expansion fl e b, IsFloat fl x := by
  intro e
  induction e with
  | nil =>
      intro b hb x hx
      simp only [grow_expansion, List.mem_singleton] at hx
      exact hx ▸ hb
  | cons a rest ih =>
      intro b hb x hx
      simp only [grow_expansion, List.mem_cons] at hx
      rcases hx with h | h
      · exact h ▸ isFloat_two_sum_snd fl b a
      · exact ih _ (isFloat_two_sum_fst fl b a) x h

theorem grow_expansion_sum (fl : ℚ → ℚ) (hTS : TwoSumExact fl) :
    ∀ (e : List ℚ) (b : ℚ), (∀ x ∈ e, IsFloat fl x) → IsFloat fl b →
      (grow_expansion fl e b).sum = b + e.sum := by
  intro e
  induction e with
  | nil => intro b _ _; simp [grow_expansion]
  | cons x rest ih =>
      intro b he hb
      have hx : IsFloat fl x := he x (by simp)
      have h := hTS b x hb hx
      have hrest : ∀ y ∈ rest, IsFloat fl y := fun y hy => he y (by simp [hy])
      rw [grow_expansion]
      simp only [List.sum_cons, ih (Two_Sum fl b x).1 hrest (isFloat_two_sum_fst fl b x)]
      linarith

theorem grow_expansion_length (fl : ℚ → ℚ) :
    ∀ (e : List ℚ) (b : ℚ), (grow_expansion fl e b).length = e.length + 1 := by
  intro e
  induction e with
  | nil => intro b; simp [grow_expansion]
  | cons x rest ih => intro b; simp [grow_expansion, ih]

theorem esLoop_sum (fl : ℚ → ℚ) (hTS : TwoSumExact fl) :
    ∀ (rest : List ℚ) (i : ℕ) (h : List ℚ),
      (∀ x ∈ h, IsFloat fl x) → (∀ x ∈ rest, IsFloat fl x) →
      (esLoop fl h i rest).sum = h.sum + rest.sum := by
  intro rest
  induction rest with
  | nil => intro i h _ _; simp [esLoop]
  | cons b rs ih =>
      intro i h hh hr
      have hb : IsFloat fl b := hr b (by simp)
      have hdrop : ∀ x ∈ h.drop i, IsFloat fl x := fun x hx => hh x (List.mem_of_mem_drop hx)
      have hnew : ∀ x ∈ h.take i ++ grow_expansion fl (h.drop i) b, IsFloat fl x := by
        intro x hx
        rcases List.mem_append.mp hx with hx | hx
        · exact hh x (List.mem_of_mem_take hx)
        · exact grow_expansion_mem fl _ b hb x hx
      rw [esLoop, ih (i + 1) _ hnew (fun x hx => hr x (by simp [hx]))]
      rw [List.sum_append, grow_expansion_sum fl hTS _ _ hdrop hb]
      have hsplit := List.sum_take_add_sum_drop h i
      simp only [List.sum_cons]
      linarith

theorem esLoop_length (fl : ℚ → ℚ) :
    ∀ (rest : List ℚ) (i : ℕ) (h : List ℚ),
      (esLoop fl h i rest).length = h.length + rest.length := by
  intro rest
  induction rest with
  | nil => intro i h; simp [esLoop]
  | cons b rs ih =>
      intro i h
      rw [esLoop, ih]
      rw [List.length_append, grow_expansion_length, List.length_take, List.length_drop]
      simp only [List.length_cons]
      omega

theorem expansion_sum_sum (fl : ℚ → ℚ) (hTS : TwoSumExact fl) (e f : List ℚ)
    (he : ∀ x ∈ e, IsFloat fl x) (hf : ∀ x ∈ f, IsFloat fl x) :
    (expansion_sum fl e f).sum = e.sum + f.sum := by
  match f with
  | [] => simp [expansion_sum]
  | b :: rest =>
      have hb : IsFloat fl b := hf b (by simp)
      rw [expansion_sum,
        esLoop_sum fl hTS rest 1 _ (grow_expansion_mem fl e b hb)
          (fun x hx => hf x (by simp [hx])),
        grow_expansion_sum fl hTS e b he hb]
      simp only [List.sum_cons]
      ring

theorem expansion_sum_length (fl : ℚ → ℚ) (e f : List ℚ) (hf : 1 ≤ f.length) :
    (expansion_sum fl e f).length = e.length + f.length := by
  match f with
  | [] => simp at hf
  | b :: rest =>
      rw [expansion_sum, esLoop_length, grow_expansion_length]
      simp only [List.length_cons]
      omega

theorem seGo_sum (fl : ℚ → ℚ) (splitter : ℚ) (hTS : TwoSumExact fl)
    (hTP : TwoProductExact fl splitter) (b : ℚ) (hb : IsFloat fl b) :
    ∀ (rest : List ℚ) (q : ℚ), (∀ x ∈ rest, IsFloat fl x) → IsFloat fl q →
      (seGo fl splitter b (Split fl splitter b).1 (Split fl splitter b).2 q rest).sum
        = q + b * rest.sum := by
  intro rest
  induction rest with
  | nil => intro q _ _; simp [seGo]
  | cons x rs ih =>
      intro q hr hq
      have hx : IsFloat fl x := hr x (by simp)
      have hp : (Two_Product_Presplit fl splitter x b (Split fl splitter b).1
          (Split fl splitter b).2).1
          + (Two_Product_Presplit fl splitter x b (Split fl splitter b).1
          (Split fl splitter b).2).2 = x * b := hTP x b hx hb
      have hs := hTS q (Two_Product_Presplit fl splitter x b (Split fl splitter b).1
          (Split fl splitter b).2).2 hq (isFloat_tpp_snd fl splitter x b _ _)
      have ht := hTS (Two_Product_Presplit fl splitter x b (Split fl splitter b).1
          (Split fl splitter b).2).1
        (Two_Sum fl q (Two_Product_Presplit fl splitter x b (Split fl splitter b).1
          (Split fl splitter b).2).2).1
        (isFloat_tpp_fst fl splitter x b _ _) (isFloat_two_sum_fst fl q _)
      have hihq : IsFloat fl (Two_Sum fl (Two_Product_Presplit fl splitter x b
          (Split fl splitter b).1 (Split fl splitter b).2).1
          (Two_Sum fl q (Two_Product_Presplit fl splitter x b (Split fl splitter b).1
          (Split fl splitter b).2).2).1).1 := isFloat_two_sum_fst fl _ _
      simp only [seGo, List.sum_cons, ih _ (fun y hy => hr y (by simp [hy])) hihq]
      nlinarith [hp, hs, ht]

theorem scale_expansion_sum (fl : ℚ → ℚ) (splitter : ℚ) (hTS : TwoSumExact fl)
    (hTP : TwoProductExact fl splitter) (e : List ℚ) (b : ℚ)
    (he : ∀ x ∈ e, IsFloat fl x) (hb : IsFloat fl b) :
    (scale_expansion fl splitter e b).sum = b * e.sum := by
  match e with
  | [] => simp [scale_expansion]
  | x :: rest =>
      have hx : IsFloat fl x := he x (by simp)
      have hp := hTP x b hx hb
      rw [scale_expansion]
      simp only [List.sum_cons,
        seGo_sum fl splitter hTS hTP b hb rest _ (fun y hy => he y (by simp [hy]))
          (isFloat_tpp_fst fl splitter x b _ _)]
      simp only [Two_Product] at hp
      nlinarith [hp]

/-! ### Nonemptiness of the zero-eliminating operations -/

theorem zfinish_ne_nil (h : List ℚ) (q : ℚ) : zfinish h q ≠ [] := by
  rw [zfinish]
  split_ifs with hc
  · simp
  · push_neg at hc
    simpa using hc.2

theorem esz2Go_ne_nil (fl : ℚ → ℚ) : ∀ (l : List ℚ) (q : ℚ), esz2Go fl q l ≠ [] := by
  intro l
  induction l with
  | nil => intro q; simp [esz2Go]
  | cons x rest ih =>
      intro q
      rw [esz2Go]
      split_ifs with hz
      · simp
      · exact ih _

theorem esz2_foldl_ne_nil (fl : ℚ → ℚ) :
    ∀ (rest h : List ℚ), h ≠ [] →
      rest.foldl (fun acc bi => esz2Go fl bi acc) h ≠ [] := by
  intro rest
  induction rest with
  | nil => intro h hh; simpa using hh
  | cons b rs ih =>
      intro h _
      rw [List.foldl_cons]
      exact ih _ (esz2Go_ne_nil fl h b)

theorem feszAfter_ne_nil (fl : ℚ → ℚ) (q : ℚ) (e1 f1 : List ℚ) :
    feszAfter fl q e1 f1 ≠ [] := by
  match e1, f1 with
  | a :: es, b :: fs =>
      rw [feszAfter]
      split_ifs with hc
      · exact zfinish_ne_nil _ _
      · exact zfinish_ne_nil _ _
  | [], f1 => exact zfinish_ne_nil _ _
  | a :: es, [] => exact zfinish_ne_nil _ _

theorem lesPick_left_ne_none (a : ℚ) (es f : List ℚ) : lesPick (a :: es) f ≠ none := by
  match f with
  | [] => simp [lesPick]
  | b :: fs =>
      rw [lesPick]
      split_ifs <;> simp

theorem lesPick_right_ne_none (e : List ℚ) (b : ℚ) (fs : List ℚ) :
    lesPick e (b :: fs) ≠ none := by
  match e with
  | [] => simp [lesPick]
  | a :: es =>
      rw [lesPick]
      split_ifs <;> simp

theorem lesFinal_pos (l : List ℚ) (bigQ q : ℚ) :
    1 ≤ (if bigQ ≠ 0 ∨ (l ++ (if q = 0 then [] else [q])).isEmpty
        then (l ++ (if q = 0 then [] else [q])) ++ [bigQ]
        else (l ++ (if q = 0 then [] else [q]))).length := by
  set m := l ++ (if q = 0 then [] else [q]) with hm
  split_ifs with h
  · simp
  · push_neg at h
    rcases hms : m with _ | ⟨y, ys⟩
    · rw [hms] at h
      simp at h
    · simp [hms]

/-! ### Claim theorems for the expansion algebra -/

/-- C6: every expansion-algebra operation preserves the represented
exact value: under a rounding whose error-free transformations are
exact on its floating-point numbers (as IEEE-754 round-to-nearest-even
is, by the Knuth and Dekker theorems; in the unbounded-exponent model
used here no overflow restriction applies), for every expansion of
length at least 1 whose components are floating-point numbers of that
rounding and every floating-point scalar `b`, the exact rational sum
of the output components of `grow_expansion e b` is `(sum e) + b`, of
`expansion_sum e f` is `(sum e) + (sum f)`, and of
`scale_expansion e b` is `b * (sum e)`. -/
theorem expansion_ops_preserve_value (fl : ℚ → ℚ) (splitter : ℚ)
    (hTS : TwoSumExact fl) (hTP : TwoProductExact fl splitter) :
    (∀ (e : List ℚ) (b : ℚ), 1 ≤ e.length →
      (∀ x ∈ e, IsFloat fl x) → IsFloat fl b →
      (grow_expansion fl e b).sum = e.sum + b)
    ∧ (∀ (e f : List ℚ), 1 ≤ e.length → 1 ≤ f.length →
      (∀ x ∈ e, IsFloat fl x) → (∀ x ∈ f, IsFloat fl x) →
      (expansion_sum fl e f).sum = e.sum + f.sum)
    ∧ (∀ (e : List ℚ) (b : ℚ), 1 ≤ e.length →
      (∀ x ∈ e, IsFloat fl x) → IsFloat fl b →
      (scale_expansion fl splitter e b).sum = b * e.sum) := by
  refine ⟨fun e b _ he hb => ?_, fun e f _ _ he hf => ?_, fun e b _ he hb => ?_⟩
  · rw [grow_expansion_sum fl hTS e b he hb]; ring
  · exact expansion_sum_sum fl hTS e f he hf
  · exact scale_expansion_sum fl splitter hTS hTP e b he hb

/-- Witness for C6 at the identity rounding and concrete expansions. -/
theorem expansion_ops_preserve_value_witness :
    (1 : ℕ) ≤ ([1, 2] : List ℚ).length
    ∧ (grow_expansion id [1, 2] 3).sum = ([1, 2] : List ℚ).sum + 3
    ∧ (expansion_sum id [1, 2] [4]).sum = ([1, 2] : List ℚ).sum + ([4] : List ℚ).sum
    ∧ (scale_expansion id 2 [1, 2] 3).sum = 3 * ([1, 2] : List ℚ).sum :=
  ⟨by simp,
   (expansion_ops_preserve_value id 2 twoSumExact_id (twoProductExact_id 2)).1
     [1, 2] 3 (by simp) (fun x _ => isFloat_id x) (isFloat_id 3),
   (expansion_ops_preserve_value id 2 twoSumExact_id (twoProductExact_id 2)).2.1
     [1, 2] [4] (by simp) (by simp) (fun x _ => isFloat_id x) (fun x _ => isFloat_id x),
   (expansion_ops_preserve_value id 2 twoSumExact_id (twoProductExact_id 2)).2.2
     [1, 2] 3 (by simp) (fun x _ => isFloat_id x) (isFloat_id 3)⟩

/-- C8: `expansion_sum` on expansions of lengths `n ≥ 1` and `m ≥ 1`
writes at most `n + m` output components and returns a length of at
most `n + m` (in fact exactly `n + m`), so a caller buffer of `n + m`
components is never overrun. -/
theorem expansion_sum_length_le (fl : ℚ → ℚ) (e f : List ℚ)
    (he : 1 ≤ e.length) (hf : 1 ≤ f.length) :
    (expansion_sum fl e f).length ≤ e.length + f.length :=
  le_of_eq (expansion_sum_length fl e f hf)

/-- Witness for C8 at the identity rounding and concrete expansions. -/
theorem expansion_sum_length_le_witness :
    (1 : ℕ) ≤ ([1, 2] : List ℚ).length ∧ (1 : ℕ) ≤ ([4] : List ℚ).length
    ∧ (expansion_sum id [1, 2] [4]).length ≤ ([1, 2] : List ℚ).length + ([4] : List ℚ).length :=
  ⟨by simp, by simp, expansion_sum_length_le id [1, 2] [4] (by simp) (by simp)⟩

/-- C7: every zero-eliminating expansion operation returns a length of
at least 1 on input expansions of length at least 1: at least one
output component is written, so reading the final component
`h[length-1]` is always in bounds. -/
theorem zeroelim_ops_length_pos (fl : ℚ → ℚ) (splitter : ℚ) (e f : List ℚ) (b : ℚ)
    (he : 1 ≤ e.length) (hf : 1 ≤ f.length) :
    1 ≤ (grow_expansion_zeroelim fl e b).length
    ∧ 1 ≤ (expansion_sum_zeroelim1 fl e f).length
    ∧ 1 ≤ (expansion_sum_zeroelim2 fl e f).length
    ∧ 1 ≤ (fast_expansion_sum_zeroelim fl e f).length
    ∧ 1 ≤ (linear_expansion_sum_zeroelim fl e f).length
    ∧ 1 ≤ (scale_expansion_zeroelim fl splitter e b).length := by
  match e, f with
  | e0 :: es, f0 :: fs =>
      refine ⟨?_, ?_, ?_, ?_, ?_, ?_⟩
      · exact List.length_pos.mpr (zfinish_ne_nil _ _)
      · rw [expansion_sum_zeroelim1]
        split_ifs with hz
        · have hlen : (expansion_sum fl (e0 :: es) (f0 :: fs)).length
              = (e0 :: es).length + (f0 :: fs).length :=
            expansion_sum_length fl _ _ (by simp)
          rw [List.length_take, hlen]
          simp only [List.length_cons]
          omega
        · have : expansion_sum_zeroelim1 fl (e0 :: es) (f0 :: fs)
              = (expansion_sum fl (e0 :: es) (f0 :: fs)).filter (fun x => decide (x ≠ 0)) := by
            rw [expansion_sum_zeroelim1]
            split_ifs
            rfl
          refine List.length_pos.mpr ?_
          intro hnil
          rw [hnil] at hz
          simp at hz
      · rw [expansion_sum_zeroelim2]
        exact List.length_pos.mpr (esz2_foldl_ne_nil fl fs _ (esz2Go_ne_nil fl _ _))
      · rw [fast_expansion_sum_zeroelim]
        split_ifs with hc
        · exact List.length_pos.mpr (feszAfter_ne_nil fl _ _ _)
        · exact List.length_pos.mpr (feszAfter_ne_nil fl _ _ _)
      · rw [linear_expansion_sum_zeroelim]
        split_ifs with hc
        · rcases hp : lesPick es (f0 :: fs) with _ | ⟨now, e2, f2⟩
          · exact absurd hp (lesPick_right_ne_none _ _ _)
          · simp only [hp]
            exact lesFinal_pos _ _ _
        · rcases hp : lesPick (e0 :: es) fs with _ | ⟨now, e2, f2⟩
          · exact absurd hp (lesPick_left_ne_none _ _ _)
          · simp only [hp]
            exact lesFinal_pos _ _ _
      · rw [scale_expansion_zeroelim]
        exact List.length_pos.mpr (zfinish_ne_nil _ _)

/-- Witness for C7 at the identity rounding and concrete expansions. -/
theorem zeroelim_ops_length_pos_witness :
    (1 : ℕ) ≤ ([1] : List ℚ).length ∧ (1 : ℕ) ≤ ([2] : List ℚ).length
    ∧ (1 ≤ (grow_expansion_zeroelim id [1] 3).length
      ∧ 1 ≤ (expansion_sum_zeroelim1 id [1] [2]).length
      ∧ 1 ≤ (expansion_sum_zeroelim2 id [1] [2]).length
      ∧ 1 ≤ (fast_expansion_sum_zeroelim id [1] [2]).length
      ∧ 1 ≤ (linear_expansion_sum_zeroelim id [1] [2]).length
      ∧ 1 ≤ (scale_expansion_zeroelim id 2 [1] 3).length) :=
  ⟨by simp, by simp, zeroelim_ops_length_pos id 2 [1] [2] 3 (by simp) (by simp)⟩

/-! ### Claim theorems for the predicates -/

/-- C9: the predicates are deterministic and stateless after
initialization: an `orient2d` or `incircle` call leaves the member
state (the error-bound table) unchanged, and a second call on the
resulting state with the same arguments returns the same value. -/
theorem predicate_calls_deterministic (fl : ℚ → ℚ) (s : PredState) (pa pb pc pd : Point) :
    (orient2dCall fl s pa pb pc).1 = s
    ∧ (orient2dCall fl (orient2dCall fl s pa pb pc).1 pa pb pc).2
      = (orient2dCall fl s pa pb pc).2
    ∧ (incircleCall fl s pa pb pc pd).1 = s
    ∧ (incircleCall fl (incircleCall fl s pa pb pc pd).1 pa pb pc pd).2
      = (incircleCall fl s pa pb pc pd).2 :=
  ⟨rfl, rfl, rfl, rfl⟩

/-- The adaptive tier of `DifferenceOfProductsOfDifferences` computes
exactly `orient2dadapt` at the orientation instantiation of its eight
arguments: the two functions differ only in the order of the four
conjuncts of the all-tails-zero test. -/
theorem adaptDOPOD_eq_orient2dadapt (fl : ℚ → ℚ) (s : PredState) (pa pb pc : Point)
    (detsum : ℚ) :
    AdaptDiffOfProdsOfDiffs fl s pa.1 pc.1 pb.2 pc.2 pa.2 pc.2 pb.1 pc.1 detsum
      = orient2dadapt fl s pa pb pc detsum := by
  simp only [AdaptDiffOfProdsOfDiffs, orient2dadapt]
  split_ifs <;> first | rfl | tauto

/-- C10: `DifferenceOfProductsOfDifferences` is an exact renaming of
the `orient2d` algorithm: at the instantiation
`(pa[0], pc[0], pb[1], pc[1], pa[1], pc[1], pb[0], pc[0])` it returns
a value identical to `orient2d(pa, pb, pc)`, every tier computing the
same operations with the same error-bound coefficients, for every
rounding and every state. -/
theorem dopod_refines_orient2d (fl : ℚ → ℚ) (s : PredState) (pa pb pc : Point) :
    DifferenceOfProductsOfDifferences fl s pa.1 pc.1 pb.2 pc.2 pa.2 pc.2 pb.1 pc.1
      = orient2d fl s pa pb pc := by
  simp only [DifferenceOfProductsOfDifferences, orient2d, adaptDOPOD_eq_orient2dadapt]

/-- C4 (amended): the exact determinant resolved by `orient2d` is
invariant under cyclic rotation of the three points, so the sign
contract is rotation-invariant; the floating-point values returned
by the tiers need not be bit-identical across rotations. -/
theorem orient2dExact_cyclic (pa pb pc : Point) :
    orient2dExact pa pb pc = orient2dExact pb pc pa
    ∧ orient2dExact pb pc pa = orient2dExact pc pa pb := by
  unfold orient2dExact
  constructor <;> ring

end Predicates

namespace Predicates

section

attribute [local semireducible] Rat.add Rat.mul Rat.inv Rat.sub

set_option maxRecDepth 40000 in
/-- Evaluation of `exactinit` under binary64 arithmetic. -/
theorem stateD_eval : stateD = stateDval := by decide

set_option maxRecDepth 40000 in
/-- C4 (counterexample): the floating-point value returned by
`orient2d` is not invariant under cyclic rotation of its arguments:
for `pa = (0,0)`, `pb = (1+2^-30, 1)`, `pc = (1, 1+2^-30)` the fast
tier returns `2^-29 + 2^-60` for `(pa,pb,pc)` but `2^-29` for
`(pb,pc,pa)`. -/
theorem orient2d_cyclic_counterexample :
    ¬ (orient2d round64 stateD (0, 0) (1 + 1 / 2 ^ (30:ℕ), 1) (1, 1 + 1 / 2 ^ (30:ℕ))
      = orient2d round64 stateD (1 + 1 / 2 ^ (30:ℕ), 1) (1, 1 + 1 / 2 ^ (30:ℕ)) (0, 0)) := by
  rw [stateD_eval]
  decide

/-- C3 (counterexample): after `exactinit`, `splitter` is not a power
of two: it equals `2^27 + 1 = 134217729`. -/
theorem splitter_not_pow_two : ¬ ∃ k : ℤ, stateD.splitter = 2 ^ k := by
  rw [stateD_eval]
  rintro ⟨k, hk⟩
  simp only [stateDval] at hk
  rcases le_or_lt k 27 with h | h
  · have h2 : (2:ℚ) ^ k ≤ 2 ^ (27:ℤ) := zpow_le_zpow_right₀ one_le_two h
    rw [← hk] at h2
    norm_num at h2
  · have h2 : (2:ℚ) ^ (28:ℤ) ≤ 2 ^ k := zpow_le_zpow_right₀ one_le_two h
    rw [← hk] at h2
    norm_num at h2

/-- C3 (amended): after `exactinit`, `splitter` equals `2^27 + 1` —
one more than a power of two (`2^⌈53/2⌉ + 1`, the Veltkamp/Dekker
splitting constant used by `Two_Product` to split a double into two
half-length significands). -/
theorem splitter_eq_pow27_succ :
    stateD.splitter = 2 ^ (27:ℕ) + 1 ∧ ∃ k : ℕ, stateD.splitter = 2 ^ k + 1 := by
  rw [stateD_eval]
  refine ⟨by norm_num [stateDval], 27, by norm_num [stateDval]⟩

set_option maxRecDepth 200000 in
set_option maxHeartbeats 1000000 in
/-- Value preservation of `grow_expansion` holds under the concrete
binary64 rounding on a concrete expansion of binary64 values whose
`Two_Sum` steps are inexact (nonzero correction terms are produced):
the hypotheses of the C6 theorem are not vacuous at
round-to-nearest-even. -/
theorem grow_expansion_round64_sum :
    (grow_expansion round64
      [((4503599627370497 : ℚ) / 4503599627370496), (1073741824 : ℚ)]
      ((1073741825 : ℚ) / 1073741824)).sum
    = ([((4503599627370497 : ℚ) / 4503599627370496), (1073741824 : ℚ)] : List ℚ).sum
      + (1073741825 : ℚ) / 1073741824 := by decide

set_option maxRecDepth 200000 in
set_option maxHeartbeats 1000000 in
/-- Value preservation of `expansion_sum` under the concrete binary64
rounding on concrete binary64 expansions. -/
theorem expansion_sum_round64_sum :
    (expansion_sum round64
      [((4503599627370497 : ℚ) / 4503599627370496), (1073741824 : ℚ)]
      [((3377699720527873 : ℚ) / 1125899906842624), ((4503599627370497 : ℚ) / 4294967296)]).sum
    = ([((4503599627370497 : ℚ) / 4503599627370496), (1073741824 : ℚ)] : List ℚ).sum
      + ([((3377699720527873 : ℚ) / 1125899906842624),
          ((4503599627370497 : ℚ) / 4294967296)] : List ℚ).sum := by decide

set_option maxRecDepth 200000 in
set_option maxHeartbeats 1000000 in
/-- Value preservation of `scale_expansion` under the concrete
binary64 rounding, with the `splitter` computed by `exactinit`, on a
concrete binary64 expansion. -/
theorem scale_expansion_round64_sum :
    (scale_expansion round64 134217729
      [((4503599627370497 : ℚ) / 4503599627370496), (1073741824 : ℚ)]
      ((1073741825 : ℚ) / 1073741824)).sum
    = ((1073741825 : ℚ) / 1073741824)
      * ([((4503599627370497 : ℚ) / 4503599627370496), (1073741824 : ℚ)] : List ℚ).sum := by
  decide

end

end Predicates
